import Mathlib

/-!
# Verification of the rethdb-reader receipt hydration and FFI result protocol

Shallow embedding of `src/op-service/rethdb-reader/src/receipts.rs`.

Addresses are modelled as `Nat` (160-bit values), hashes as `Nat` (256-bit
values), gas quantities as `Nat` with explicit `% 2^64` wrapping where the
Rust `u64` arithmetic can overflow. Raw pointers crossing the FFI boundary
are modelled as `Option`: `none` is the null pointer, `some v` a valid
pointer to `v`. Fallible Rust code (`Result`, `Option`) becomes
`Except String` and `Option`.
-/

set_option autoImplicit false

namespace RethdbReader

/-- A raw log entry as stored in the database
(`reth_primitives::Log`): emitting address, ordered topics, data bytes. -/
structure RawLog where
  address : Nat
  topics : List Nat
  data : List Nat
  deriving Repr, DecidableEq

/-- A raw per-transaction receipt as stored in the database
(`reth_primitives::Receipt`): type tag, success flag, cumulative gas used up
to and including this transaction, ordered logs. -/
structure Receipt where
  tx_type : Nat
  success : Bool
  cumulative_gas_used : Nat
  logs : List RawLog
  deriving Repr, DecidableEq

/-- `reth_primitives::TransactionKind`: a call with a target address, or a
contract creation. -/
inductive TransactionKind where
  | Create : TransactionKind
  | Call : Nat → TransactionKind
  deriving Repr, DecidableEq

/-- A signed transaction (`reth_primitives::TransactionSigned`). The fields
the hydrator consumes are embedded directly:
`ecrecovered_signer` models the result of `into_ecrecovered()` (`none` when
the sender cannot be recovered from the signature), and
`effective_gas_price_fn` models the external
`Transaction::effective_gas_price(base_fee)` computation as a function of
the optional block base fee. -/
structure TransactionSigned where
  hash : Nat
  nonce : Nat
  tx_type : Nat
  kind : TransactionKind
  ecrecovered_signer : Option Nat
  effective_gas_price_fn : Option Nat → Nat

/-- `reth_primitives::TransactionMeta`: per-transaction position metadata
derived once per block. `excess_blob_gas` is always `None` at the only
construction site and is omitted. -/
structure TransactionMeta where
  tx_hash : Nat
  index : Nat
  block_hash : Nat
  block_number : Nat
  base_fee : Option Nat
  deriving Repr, DecidableEq

/-- Models the external deterministic contract-address derivation
`Address::create(sender, nonce)` (RLP + keccak in reth). Only determinism
in (sender, nonce) matters for this development, so an injective pairing
stands in for the hash. -/
def createAddress (sender nonce : Nat) : Nat :=
  Nat.pair sender nonce

/-- Models the external deterministic bloom-filter construction
`Receipt::bloom_slow()`. Only determinism in the logs matters here. -/
def bloomSlow (logs : List RawLog) : Nat :=
  logs.foldl (fun acc l => Nat.pair acc (Nat.pair l.address l.topics.length)) 0

/-- A hydrated RPC log (`reth_rpc_types::Log`). -/
structure RpcLog where
  address : Nat
  topics : List Nat
  data : List Nat
  block_hash : Option Nat
  block_number : Option Nat
  transaction_hash : Option Nat
  transaction_index : Option Nat
  log_index : Option Nat
  removed : Bool
  deriving Repr, DecidableEq

/-- A hydrated receipt (`reth_rpc_types::TransactionReceipt`). The Rust
fields `from` and `to` are Lean keywords and are embedded as `from_addr`
and `to_addr`. -/
structure TransactionReceipt where
  transaction_hash : Option Nat
  transaction_index : Nat
  block_hash : Option Nat
  block_number : Option Nat
  from_addr : Nat
  to_addr : Option Nat
  cumulative_gas_used : Nat
  gas_used : Option Nat
  contract_address : Option Nat
  logs : List RpcLog
  effective_gas_price : Nat
  transaction_type : Nat
  state_root : Option Nat
  logs_bloom : Nat
  status_code : Option Nat
  blob_gas_price : Option Nat
  blob_gas_used : Option Nat
  deriving Repr, DecidableEq, Inhabited

/-- Wrapping `u64` subtraction: for `a b < 2^64` this is the value the Rust
expression `a - b` produces in release mode (two's-complement wraparound). -/
def u64sub (a b : Nat) : Nat :=
  (a + 2 ^ 64 - b) % 2 ^ 64

/-- Embedding of `build_transaction_receipt_with_block_receipts`
(receipts.rs lines 131-209). Returns `none` iff the transaction's sender
cannot be recovered from the signature. -/
def build_transaction_receipt_with_block_receipts
    (tx : TransactionSigned) (meta : TransactionMeta)
    (receipt : Receipt) (all_receipts : List Receipt) :
    Option TransactionReceipt :=
  match tx.ecrecovered_signer with
  | none => none
  | some signer =>
    -- get the previous transaction cumulative gas used (lines 140-148)
    let gas_used : Nat :=
      if meta.index = 0 then
        receipt.cumulative_gas_used
      else
        match all_receipts.get? (meta.index - 1) with
        | some prev_receipt =>
            u64sub receipt.cumulative_gas_used prev_receipt.cumulative_gas_used
        | none => 0
    let res_receipt : TransactionReceipt :=
      { transaction_hash := some meta.tx_hash
        transaction_index := meta.index
        block_hash := some meta.block_hash
        block_number := some meta.block_number
        from_addr := signer
        to_addr := none
        cumulative_gas_used := receipt.cumulative_gas_used
        gas_used := some gas_used
        contract_address := none
        logs := []
        effective_gas_price := tx.effective_gas_price_fn meta.base_fee
        transaction_type := tx.tx_type
        state_root := none
        logs_bloom := bloomSlow receipt.logs
        status_code := if receipt.success then some 1 else some 0
        blob_gas_price := none
        blob_gas_used := none }
    -- match on the transaction kind (lines 177-185)
    let res_receipt :=
      match tx.kind with
      | TransactionKind.Create =>
          { res_receipt with contract_address := some (createAddress signer tx.nonce) }
      | TransactionKind.Call addr =>
          { res_receipt with to_addr := some addr }
    -- get number of logs in the block (lines 187-191)
    let num_logs := ((all_receipts.take meta.index).map (fun r => r.logs.length)).sum
    -- hydrate each log in order (lines 193-206)
    let logs := receipt.logs.enum.map (fun p =>
      { address := p.2.address
        topics := p.2.topics
        data := p.2.data
        block_hash := some meta.block_hash
        block_number := some meta.block_number
        transaction_hash := some meta.tx_hash
        transaction_index := some meta.index
        log_index := some (num_logs + p.1)
        removed := false : RpcLog })
    some { res_receipt with logs := logs }

/-- The FFI result envelope (receipts.rs lines 21-26). The raw
`*mut char` data pointer is modelled as `Option String`: `none` is the null
pointer, `some s` a valid pointer to the serialized string `s`. -/
structure ReceiptsResult where
  data : Option String
  data_len : Nat
  error : Bool
  deriving Repr, DecidableEq

/-- `ReceiptsResult::success` (lines 30-36). -/
def ReceiptsResult.success (data : String) (data_len : Nat) : ReceiptsResult :=
  { data := some data, data_len := data_len, error := false }

/-- `ReceiptsResult::fail` (lines 39-45): null data pointer, zero length,
error flag set. -/
def ReceiptsResult.fail : ReceiptsResult :=
  { data := none, data_len := 0, error := true }

/-- A block as returned by the external provider
(`reth_primitives::Block`, restricted to the fields the reader consumes).
`hashSlow` models the recomputed canonical header hash `block.hash_slow()`,
a deterministic function of the header content. -/
structure Block where
  number : Nat
  base_fee_per_gas : Option Nat
  body : List TransactionSigned
  hashSlow : Nat

/-- The external storage capability consumed by `read_receipts_inner`:
opening the database read-only plus the two lookups
(`block_by_hash`, `receipts_by_block`). Each is fallible
(`Except` models the Rust `Result`) and each lookup may report absence
(`Option`). -/
structure Provider where
  openDb : String → Except String Unit
  blockByHash : List Nat → Except String (Option Block)
  receiptsByBlock : List Nat → Except String (Option (List Receipt))

/-- `Iterator::collect::<Option<Vec<_>>>`: `some` of the list of values
when every element is `some`, otherwise `none`. -/
def collectOption {α : Type} : List (Option α) → Option (List α)
  | [] => some []
  | none :: _ => none
  | some a :: rest => (collectOption rest).map (fun l => a :: l)

/-- Models the external commodity JSON serializer
(`serde_json::to_string`). The claims under verification depend only on it
being a deterministic total function of the receipt list, not on the
encoding itself, so the list's printed representation stands in for the
JSON text. -/
def serializeReceipts (receipts : List TransactionReceipt) : String :=
  toString (repr receipts)

/-- The per-block hydration pipeline of `read_receipts_inner`
(lines 94-111): zip the block body with the raw receipts, enumerate,
build each transaction receipt, and collect, failing as a whole if any
single hydration fails. -/
def hydrateBlock (block : Block) (receipts : List Receipt) :
    Option (List TransactionReceipt) :=
  collectOption ((block.body.zip receipts).enum.map (fun p =>
    build_transaction_receipt_with_block_receipts p.2.1
      { tx_hash := p.2.1.hash
        index := p.1
        block_hash := block.hashSlow
        block_number := block.number
        base_fee := block.base_fee_per_gas }
      p.2.2 receipts))

/-- Embedding of `read_receipts_inner` (lines 54-124).

The `block_hash` pointer-plus-length pair is modelled as
`Option (List Nat)`: `none` is a null pointer, `some bytes` a valid pointer
from which `block_hash_len = bytes.length` bytes are read; the
`[u8; 32]` conversion fails unless exactly 32 bytes were read. The
`db_path` C string is modelled as `Option (Option String)`: `none` is a
null pointer, `some none` a non-null pointer whose bytes are not valid
UTF-8 (`CStr::to_str` fails), `some (some s)` a valid path string. -/
def read_receipts_inner (p : Provider)
    (block_hash : Option (List Nat)) (db_path : Option (Option String)) :
    Except String ReceiptsResult :=
  match block_hash with
  | none => Except.error "block_hash pointer is null"
  | some bytes =>
    if bytes.length = 32 then
      match db_path with
      | none => Except.error "db path pointer is null"
      | some none => Except.error "invalid utf-8 sequence"
      | some (some path) =>
        match p.openDb path with
        | Except.error e => Except.error e
        | Except.ok _ =>
          match p.blockByHash bytes with
          | Except.error e => Except.error e
          | Except.ok none => Except.error "Failed to fetch block"
          | Except.ok (some block) =>
            match p.receiptsByBlock bytes with
            | Except.error e => Except.error e
            | Except.ok none => Except.error "Failed to fetch block receipts"
            | Except.ok (some receipts) =>
              match hydrateBlock block receipts with
              | none => Except.error "Failed to build receipts"
              | some recs =>
                let json := serializeReceipts recs
                Except.ok (ReceiptsResult.success json json.length)
    else
      Except.error "could not convert slice to array"

/-- Modelled from the spec: the exported FFI entry point
(`fetch_block_receipts`, spec section 4.2) that wraps `read_receipts_inner`
is not part of the sources under verification; per the propagation policy
of section 7 every internal failure is converted to the uniform failure
envelope, so the wrapper maps any `Err` to `ReceiptsResult::fail()` and
passes a successful envelope through unchanged. -/
def fetch_block_receipts (p : Provider)
    (block_hash : Option (List Nat)) (db_path : Option (Option String)) :
    ReceiptsResult :=
  match read_receipts_inner p block_hash db_path with
  | Except.ok r => r
  | Except.error _ => ReceiptsResult.fail

/-- Number of logs of the raw receipts strictly before position `i`:
the block-scoped starting log index of transaction `i`. -/
def numLogsBefore (all : List Receipt) (i : Nat) : Nat :=
  ((all.take i).map (fun r => r.logs.length)).sum

/-- Gas-accounting well-formedness of a raw receipt list: every cumulative
value fits in a `u64` and the sequence is non-decreasing (cumulative gas
used is a running total). -/
def gasWellFormed (rs : List Receipt) : Prop :=
  (∀ r ∈ rs, r.cumulative_gas_used < 2 ^ 64) ∧
  rs.Chain' (fun a b => a.cumulative_gas_used ≤ b.cumulative_gas_used)

instance (rs : List Receipt) : Decidable (gasWellFormed rs) :=
  inferInstanceAs (Decidable
    ((∀ r ∈ rs, r.cumulative_gas_used < 2 ^ 64) ∧
      rs.Chain' (fun a b : Receipt =>
        a.cumulative_gas_used ≤ b.cumulative_gas_used)))

/-! ### Helper lemmas -/

theorem u64sub_of_le {a b : Nat} (hle : b ≤ a) (ha : a < 2 ^ 64) :
    u64sub a b = a - b := by
  unfold u64sub
  rw [show a + 2 ^ 64 - b = (a - b) + 2 ^ 64 by omega, Nat.add_mod_right]
  exact Nat.mod_eq_of_lt (by omega)

theorem build_isSome_iff (tx : TransactionSigned) (meta : TransactionMeta)
    (receipt : Receipt) (all_receipts : List Receipt) :
    (build_transaction_receipt_with_block_receipts tx meta receipt all_receipts).isSome
      ↔ ∃ s, tx.ecrecovered_signer = some s := by
  cases h : tx.ecrecovered_signer with
  | none => simp [build_transaction_receipt_with_block_receipts, h]
  | some s => simp [build_transaction_receipt_with_block_receipts, h]

theorem build_gas_used {tx : TransactionSigned} {meta : TransactionMeta}
    {receipt : Receipt} {all_receipts : List Receipt} {out : TransactionReceipt}
    (h : build_transaction_receipt_with_block_receipts tx meta receipt all_receipts
      = some out) :
    out.gas_used = some (if meta.index = 0 then receipt.cumulative_gas_used
      else
        match all_receipts.get? (meta.index - 1) with
        | some prev => u64sub receipt.cumulative_gas_used prev.cumulative_gas_used
        | none => 0) := by
  cases hrec : tx.ecrecovered_signer with
  | none => simp [build_transaction_receipt_with_block_receipts, hrec] at h
  | some s =>
    cases hk : tx.kind <;>
      simp [build_transaction_receipt_with_block_receipts, hrec, hk] at h <;>
      simp [← h]

theorem build_logs {tx : TransactionSigned} {meta : TransactionMeta}
    {receipt : Receipt} {all_receipts : List Receipt} {out : TransactionReceipt}
    (h : build_transaction_receipt_with_block_receipts tx meta receipt all_receipts
      = some out) :
    out.logs = receipt.logs.enum.map (fun p =>
      { address := p.2.address
        topics := p.2.topics
        data := p.2.data
        block_hash := some meta.block_hash
        block_number := some meta.block_number
        transaction_hash := some meta.tx_hash
        transaction_index := some meta.index
        log_index := some (numLogsBefore all_receipts meta.index + p.1)
        removed := false : RpcLog }) := by
  cases hrec : tx.ecrecovered_signer with
  | none => simp [build_transaction_receipt_with_block_receipts, hrec] at h
  | some s =>
    cases hk : tx.kind <;>
      simp [build_transaction_receipt_with_block_receipts, hrec, hk] at h <;>
      simp [← h, numLogsBefore]

theorem collectOption_length {α : Type} {xs : List (Option α)} {ys : List α}
    (h : collectOption xs = some ys) : ys.length = xs.length := by
  induction xs generalizing ys with
  | nil =>
    simp [collectOption] at h
    simp [← h]
  | cons x xs ih =>
    cases x with
    | none => simp [collectOption] at h
    | some a =>
      simp only [collectOption, Option.map_eq_some'] at h
      obtain ⟨ys', h1, h2⟩ := h
      simp [← h2, ih h1]

theorem collectOption_get? {α : Type} {xs : List (Option α)} {ys : List α}
    (h : collectOption xs = some ys) (i : Nat) :
    xs.get? i = (ys.get? i).map some := by
  induction xs generalizing ys i with
  | nil =>
    simp [collectOption] at h
    subst h
    simp
  | cons x xs ih =>
    cases x with
    | none => simp [collectOption] at h
    | some a =>
      simp only [collectOption, Option.map_eq_some'] at h
      obtain ⟨ys', h1, h2⟩ := h
      cases i with
      | zero => simp [← h2]
      | succ n => simpa [← h2] using ih h1 n

/-- Workhorse: a successful block hydration has one output record per
zipped (transaction, receipt) pair, and the record at position `i` is the
one built from the transaction and raw receipt at position `i`. -/
theorem hydrateBlock_spec {block : Block} {receipts : List Receipt}
    {recs : List TransactionReceipt}
    (h : hydrateBlock block receipts = some recs) :
    recs.length = min block.body.length receipts.length ∧
    ∀ i, i < recs.length → ∃ tx rc r,
      block.body.get? i = some tx ∧ receipts.get? i = some rc ∧
      build_transaction_receipt_with_block_receipts tx
        { tx_hash := tx.hash
          index := i
          block_hash := block.hashSlow
          block_number := block.number
          base_fee := block.base_fee_per_gas } rc receipts = some r ∧
      recs.get? i = some r := by
  unfold hydrateBlock at h
  constructor
  · rw [collectOption_length h]
    simp
  · intro i hi
    have hget := collectOption_get? h i
    obtain ⟨r, hr⟩ : ∃ r, recs.get? i = some r := by
      rw [List.get?_eq_get hi]
      exact ⟨_, rfl⟩
    rw [hr, Option.map_some'] at hget
    rw [List.get?_map] at hget
    obtain ⟨pr, hpr, hbuild⟩ := Option.map_eq_some'.mp hget
    rw [List.get?_enum] at hpr
    obtain ⟨q, hq, hq2⟩ := Option.map_eq_some'.mp hpr
    obtain ⟨hq1, hq2'⟩ := (List.get?_zip_eq_some _ _ _ _).mp hq
    refine ⟨q.1, q.2, r, hq1, hq2', ?_, hr⟩
    rw [← hbuild, ← hq2]

/-! ### Concrete fixtures used by the witness theorems -/

/-- Concrete call transaction with recoverable sender. -/
def wTx0 : TransactionSigned :=
  { hash := 0x11, nonce := 5, tx_type := 2, kind := TransactionKind.Call 0x22
    ecrecovered_signer := some 0xaa, effective_gas_price_fn := fun _ => 3 }

/-- Concrete creation transaction with recoverable sender. -/
def wTx1 : TransactionSigned :=
  { hash := 0x12, nonce := 6, tx_type := 2, kind := TransactionKind.Create
    ecrecovered_signer := some 0xbb, effective_gas_price_fn := fun _ => 4 }

/-- Concrete transaction whose sender cannot be recovered. -/
def wTxBad : TransactionSigned :=
  { hash := 0x13, nonce := 7, tx_type := 2, kind := TransactionKind.Call 0x23
    ecrecovered_signer := none, effective_gas_price_fn := fun _ => 5 }

/-- Concrete raw log. -/
def wLog : RawLog := { address := 0x33, topics := [1, 2], data := [7] }

/-- Concrete raw receipt at index 0. -/
def wRc0 : Receipt :=
  { tx_type := 2, success := true, cumulative_gas_used := 10, logs := [wLog] }

/-- Concrete raw receipt at index 1. -/
def wRc1 : Receipt :=
  { tx_type := 2, success := false, cumulative_gas_used := 25, logs := [wLog, wLog] }

/-- Concrete raw receipt list for a two-transaction block. -/
def wReceipts : List Receipt := [wRc0, wRc1]

/-- Concrete two-transaction block. -/
def wBlock : Block :=
  { number := 1234, base_fee_per_gas := some 7, body := [wTx0, wTx1], hashSlow := 0x99 }

/-- The hydrated output of the concrete block (evaluable). -/
def wRecs : List TransactionReceipt := (hydrateBlock wBlock wReceipts).getD []

/-- The hydrated receipt at index 1 of the concrete block. -/
def wHyd1 : TransactionReceipt := (wRecs.get? 1).getD default

/-- The position metadata `read_receipts_inner` derives for index 1 of the
concrete block. -/
def wMeta1 : TransactionMeta :=
  { tx_hash := wTx1.hash, index := 1, block_hash := wBlock.hashSlow
    block_number := wBlock.number, base_fee := wBlock.base_fee_per_gas }

/-- Concrete provider backed by the concrete block and receipts. -/
def wProvider : Provider :=
  { openDb := fun _ => Except.ok ()
    blockByHash := fun _ => Except.ok (some wBlock)
    receiptsByBlock := fun _ => Except.ok (some wReceipts) }

/-- Concrete 32-byte block-hash argument. -/
def wHash32 : List Nat := List.replicate 32 0

/-- The concrete raw receipts are gas-well-formed. -/
theorem wReceipts_gasWellFormed : gasWellFormed wReceipts := by
  constructor
  · decide
  · unfold wReceipts
    simp [List.chain'_cons, wRc0, wRc1]

/-! ### Claims -/

/-- C1: for every block hydration of a gas-well-formed raw-receipt list,
the per-transaction `gas_used` field of the hydrated receipt at index `i`
equals `raw_receipts[i].cumulative_gas_used -
raw_receipts[i-1].cumulative_gas_used` when `i > 0`, and equals
`raw_receipts[0].cumulative_gas_used` when `i = 0`. -/
theorem gas_delta_invariant {block : Block} {receipts : List Receipt}
    {recs : List TransactionReceipt}
    (hhyd : hydrateBlock block receipts = some recs)
    (hwf : gasWellFormed receipts) :
    ∀ i ri, recs.get? i = some ri →
      (i = 0 → ∃ rc0, receipts.get? 0 = some rc0 ∧
        ri.gas_used = some rc0.cumulative_gas_used) ∧
      (0 < i → ∃ rcp rcc, receipts.get? (i - 1) = some rcp ∧
        receipts.get? i = some rcc ∧
        ri.gas_used = some (rcc.cumulative_gas_used - rcp.cumulative_gas_used)) := by
  intro i ri hri
  have hi : i < recs.length := (List.get?_eq_some.mp hri).choose
  obtain ⟨hlen, hspec⟩ := hydrateBlock_spec hhyd
  obtain ⟨tx, rc, r, hb1, hb2, hb3, hb4⟩ := hspec i hi
  have hr : r = ri := by
    rw [hri] at hb4
    exact (Option.some.inj hb4).symm
  subst hr
  have hgas := build_gas_used hb3
  dsimp only at hgas
  constructor
  · intro h0
    subst h0
    exact ⟨rc, hb2, by simpa using hgas⟩
  · intro hpos
    have hir : i < receipts.length := by
      have := hlen ▸ hi
      omega
    have hi1 : i - 1 < receipts.length := by omega
    obtain ⟨rcp, hrcp⟩ : ∃ rcp, receipts.get? (i - 1) = some rcp :=
      ⟨_, List.get?_eq_get hi1⟩
    refine ⟨rcp, rc, hrcp, hb2, ?_⟩
    rw [if_neg (by omega), hrcp] at hgas
    have hmem : rc ∈ receipts := List.get?_mem hb2
    have hlt := hwf.1 rc hmem
    have egetp : rcp = receipts.get ⟨i - 1, hi1⟩ := by
      have e := List.get?_eq_get hi1
      rw [hrcp] at e
      exact Option.some.inj e
    have egetc : rc = receipts.get ⟨i, hir⟩ := by
      have e := List.get?_eq_get hir
      rw [hb2] at e
      exact Option.some.inj e
    have hle : rcp.cumulative_gas_used ≤ rc.cumulative_gas_used := by
      have hc := List.chain'_iff_get.mp hwf.2 (i - 1) (by omega)
      have e : i - 1 + 1 = i := by omega
      rw [egetp, egetc]
      simpa [e] using hc
    rw [hgas]
    show some (u64sub rc.cumulative_gas_used rcp.cumulative_gas_used) = _
    rw [u64sub_of_le hle hlt]

/-- Witness for C1 at the concrete two-transaction block:
the receipt at index 1 carries `gas_used = 25 - 10 = 15`. -/
theorem gas_delta_invariant_witness :
    hydrateBlock wBlock wReceipts = some wRecs ∧
    wRecs.get? 1 = some wHyd1 ∧
    wHyd1.gas_used = some 15 := by
  refine ⟨rfl, rfl, ?_⟩
  have h := (gas_delta_invariant
    (rfl : hydrateBlock wBlock wReceipts = some wRecs)
    wReceipts_gasWellFormed 1 wHyd1 rfl).2 (by decide)
  obtain ⟨rcp, rcc, h1, h2, h3⟩ := h
  simp [wReceipts] at h1 h2
  subst h1
  subst h2
  simpa [wRc0, wRc1] using h3

/-- C5: every hydrated receipt has exactly one of the recipient
(`to`) and `contract_address` fields present; a call transaction gets the
call target as recipient and no contract address, a creation transaction
gets no recipient and the address deterministically derived from the
sender and the nonce. -/
theorem creation_call_exclusivity {tx : TransactionSigned}
    {meta : TransactionMeta} {receipt : Receipt} {all_receipts : List Receipt}
    {out : TransactionReceipt}
    (h : build_transaction_receipt_with_block_receipts tx meta receipt all_receipts
      = some out) :
    ((out.to_addr ≠ none ∧ out.contract_address = none) ∨
      (out.to_addr = none ∧ out.contract_address ≠ none)) ∧
    (∀ addr, tx.kind = TransactionKind.Call addr →
      out.to_addr = some addr ∧ out.contract_address = none) ∧
    (tx.kind = TransactionKind.Create →
      out.to_addr = none ∧ ∃ s, tx.ecrecovered_signer = some s ∧
        out.from_addr = s ∧
        out.contract_address = some (createAddress s tx.nonce)) := by
  cases hrec : tx.ecrecovered_signer with
  | none => simp [build_transaction_receipt_with_block_receipts, hrec] at h
  | some s =>
    cases hk : tx.kind with
    | Create =>
      simp [build_transaction_receipt_with_block_receipts, hrec, hk] at h
      refine ⟨Or.inr ⟨by simp [← h], by simp [← h]⟩, ?_, ?_⟩
      · intro addr haddr
        exact absurd haddr (by simp)
      · intro _
        exact ⟨by simp [← h], s, rfl, by simp [← h], by simp [← h]⟩
    | Call addr =>
      simp [build_transaction_receipt_with_block_receipts, hrec, hk] at h
      refine ⟨Or.inl ⟨by simp [← h], by simp [← h]⟩, ?_, ?_⟩
      · intro addr' haddr'
        have haa : addr = addr' := by
          cases haddr'
          rfl
        subst haa
        exact ⟨by simp [← h], by simp [← h]⟩
      · intro hcreate
        exact absurd hcreate (by simp)

/-- Witness for C5: hydrating the concrete creation transaction leaves
the recipient absent and sets the derived contract address. -/
theorem creation_call_exclusivity_witness :
    build_transaction_receipt_with_block_receipts wTx1 wMeta1 wRc1 wReceipts
      = some wHyd1 ∧
    wHyd1.to_addr = none ∧
    wHyd1.contract_address = some (createAddress 0xbb wTx1.nonce) := by
  have h := (creation_call_exclusivity
    (rfl : build_transaction_receipt_with_block_receipts wTx1 wMeta1 wRc1 wReceipts
      = some wHyd1)).2.2 rfl
  obtain ⟨hto, s, hs, _, hca⟩ := h
  have hsv : s = 0xbb := by
    simp [wTx1] at hs
    exact hs.symm
  subst hsv
  exact ⟨rfl, hto, hca⟩

/-- C8: when `pos.index > 0` and the previous receipt is missing from
`all_receipts`, hydration of a sender-recoverable transaction still
succeeds, with the per-transaction gas used taken as zero. -/
theorem missing_prev_receipt_zero_gas {tx : TransactionSigned}
    {meta : TransactionMeta} {receipt : Receipt} {all_receipts : List Receipt}
    {s : Nat}
    (hidx : meta.index ≠ 0)
    (hmiss : all_receipts.get? (meta.index - 1) = none)
    (hs : tx.ecrecovered_signer = some s) :
    ∃ out, build_transaction_receipt_with_block_receipts tx meta receipt all_receipts
      = some out ∧ out.gas_used = some 0 := by
  have hsome : (build_transaction_receipt_with_block_receipts tx meta receipt
      all_receipts).isSome :=
    (build_isSome_iff tx meta receipt all_receipts).mpr ⟨s, hs⟩
  obtain ⟨out, hout⟩ := Option.isSome_iff_exists.mp hsome
  refine ⟨out, hout, ?_⟩
  have hgas := build_gas_used hout
  rw [if_neg hidx, hmiss] at hgas
  exact hgas

/-- Witness for C8 at index 5 against the two-element receipt list, whose
position 4 is vacant. -/
theorem missing_prev_receipt_zero_gas_witness :
    ∃ out, build_transaction_receipt_with_block_receipts wTx0
      { tx_hash := wTx0.hash, index := 5, block_hash := wBlock.hashSlow
        block_number := wBlock.number, base_fee := wBlock.base_fee_per_gas }
      wRc1 wReceipts = some out ∧ out.gas_used = some 0 :=
  missing_prev_receipt_zero_gas (by decide) rfl rfl

/-- C10: the hydrator reads `all_receipts` only at positions strictly
before `pos.index`; two receipt lists that agree there hydrate the same
transaction identically. -/
theorem hydrator_prefix_noninterference (tx : TransactionSigned)
    (meta : TransactionMeta) (receipt : Receipt) {rs1 rs2 : List Receipt}
    (hag : ∀ j, j < meta.index → rs1.get? j = rs2.get? j) :
    build_transaction_receipt_with_block_receipts tx meta receipt rs1
      = build_transaction_receipt_with_block_receipts tx meta receipt rs2 := by
  have htake : rs1.take meta.index = rs2.take meta.index := by
    apply List.ext_get?
    intro j
    by_cases hj : j < meta.index
    · rw [List.get?_take hj, List.get?_take hj]
      exact hag j hj
    · have hj' : meta.index ≤ j := by omega
      simp [List.get?_eq_getElem?, List.getElem?_take_eq_none (by simpa using hj')]
  have htake2 : List.take meta.index (rs1.map (fun r => r.logs.length))
      = List.take meta.index (rs2.map (fun r => r.logs.length)) := by
    rw [← List.map_take, ← List.map_take, htake]
  cases hrec : tx.ecrecovered_signer with
  | none => simp [build_transaction_receipt_with_block_receipts, hrec]
  | some s =>
    by_cases h0 : meta.index = 0
    · simp [build_transaction_receipt_with_block_receipts, hrec, h0, htake, htake2]
    · have hprev : rs1[meta.index - 1]? = rs2[meta.index - 1]? := by
        simpa [List.get?_eq_getElem?] using hag (meta.index - 1) (by omega)
      simp [build_transaction_receipt_with_block_receipts, hrec, h0, htake,
        htake2, hprev]

/-- Alternative receipt list that agrees with the concrete one only at
position 0. -/
def wAlt : List Receipt :=
  [wRc0, { tx_type := 0, success := true, cumulative_gas_used := 1000, logs := [] }]

/-- Witness for C10: hydration at index 1 cannot distinguish the two
lists agreeing at position 0. -/
theorem hydrator_prefix_noninterference_witness :
    build_transaction_receipt_with_block_receipts wTx1 wMeta1 wRc1 wReceipts
      = build_transaction_receipt_with_block_receipts wTx1 wMeta1 wRc1 wAlt :=
  hydrator_prefix_noninterference wTx1 wMeta1 wRc1 (by
    intro j hj
    have hj0 : j = 0 := by
      have : wMeta1.index = 1 := rfl
      omega
    subst hj0
    rfl)

/-- Raw receipt list violating cumulative-gas monotonicity
(1 followed by 0). -/
def wAllUnder : List Receipt :=
  [ { tx_type := 2, success := true, cumulative_gas_used := 1, logs := [] },
    { tx_type := 2, success := true, cumulative_gas_used := 0, logs := [] } ]

/-- Position metadata for index 1 of the non-monotone list. -/
def wMetaUnder : TransactionMeta :=
  { tx_hash := wTx0.hash, index := 1, block_hash := 0, block_number := 0
    base_fee := none }

/-- The second receipt of the non-monotone list. -/
def wRcUnder : Receipt :=
  { tx_type := 2, success := true, cumulative_gas_used := 0, logs := [] }

/-- The hydrated output at index 1 of the non-monotone list. -/
def wOutUnder : TransactionReceipt :=
  (build_transaction_receipt_with_block_receipts wTx0 wMetaUnder wRcUnder
    wAllUnder).getD default

/-- C9: under the monotonicity precondition the gas-delta subtraction never
wraps — the hydrated `gas_used` is the exact difference of cumulative
values and stays below `2^64` — and the precondition is genuinely required:
on a list whose cumulative gas decreases, the very same code path wraps
around to `2^64 - 1`. -/
theorem gas_sub_underflow_guard :
    (∀ (tx : TransactionSigned) (meta : TransactionMeta)
      (receipt prev : Receipt) (all_receipts : List Receipt)
      (out : TransactionReceipt),
      meta.index ≠ 0 →
      all_receipts.get? (meta.index - 1) = some prev →
      prev.cumulative_gas_used ≤ receipt.cumulative_gas_used →
      receipt.cumulative_gas_used < 2 ^ 64 →
      build_transaction_receipt_with_block_receipts tx meta receipt all_receipts
        = some out →
      out.gas_used = some (receipt.cumulative_gas_used - prev.cumulative_gas_used) ∧
        receipt.cumulative_gas_used - prev.cumulative_gas_used < 2 ^ 64) ∧
    (build_transaction_receipt_with_block_receipts wTx0 wMetaUnder wRcUnder
        wAllUnder = some wOutUnder ∧
      wOutUnder.gas_used = some (2 ^ 64 - 1)) := by
  constructor
  · intro tx meta receipt prev all_receipts out hidx hprev hle hlt hbuild
    have hgas := build_gas_used hbuild
    rw [if_neg hidx, hprev] at hgas
    constructor
    · rw [hgas]
      show some (u64sub receipt.cumulative_gas_used prev.cumulative_gas_used) = _
      rw [u64sub_of_le hle hlt]
    · omega
  · exact ⟨rfl, by decide⟩

/-- Witness for C9 on the monotone concrete block: the delta at index 1 is
the exact difference and in range. -/
theorem gas_sub_underflow_guard_witness :
    wHyd1.gas_used
      = some (wRc1.cumulative_gas_used - wRc0.cumulative_gas_used) ∧
    wRc1.cumulative_gas_used - wRc0.cumulative_gas_used < 2 ^ 64 :=
  gas_sub_underflow_guard.1 wTx1 wMeta1 wRc1 wRc0 wReceipts wHyd1
    (by decide) rfl (by decide) (by decide) rfl

/-- Exhaustive case analysis of the boundary adapter: every envelope it
returns is either the failure sentinel or a success envelope carrying the
serialization of some hydrated receipt list together with its exact byte
length. -/
theorem fetch_cases (p : Provider) (block_hash : Option (List Nat))
    (db_path : Option (Option String)) :
    fetch_block_receipts p block_hash db_path = ReceiptsResult.fail ∨
    ∃ recs, fetch_block_receipts p block_hash db_path
      = ReceiptsResult.success (serializeReceipts recs)
          (serializeReceipts recs).length := by
  unfold fetch_block_receipts read_receipts_inner
  cases block_hash with
  | none => exact Or.inl rfl
  | some bytes =>
    dsimp only
    by_cases hlen : bytes.length = 32
    · rw [if_pos hlen]
      cases db_path with
      | none => exact Or.inl rfl
      | some od =>
        cases od with
        | none => exact Or.inl rfl
        | some path =>
          try dsimp only
          cases hdb : p.openDb path with
          | error e => exact Or.inl rfl
          | ok u =>
            try dsimp only
            cases hbb : p.blockByHash bytes with
            | error e => exact Or.inl rfl
            | ok ob =>
              try dsimp only
              cases ob with
              | none => exact Or.inl rfl
              | some block =>
                try dsimp only
                cases hrb : p.receiptsByBlock bytes with
                | error e => exact Or.inl rfl
                | ok orc =>
                  try dsimp only
                  cases orc with
                  | none => exact Or.inl rfl
                  | some receipts =>
                    try dsimp only
                    cases hh : hydrateBlock block receipts with
                    | none => exact Or.inl rfl
                    | some recs => exact Or.inr ⟨recs, rfl⟩
    · rw [if_neg hlen]
      exact Or.inl rfl

/-- C7: the boundary adapter validates its inputs before use; a null
block-hash pointer, a block-hash length other than 32, a null path pointer,
or a path that is not valid text each yield the failure envelope, never a
success. -/
theorem input_validation_failure (p : Provider) (block_hash : Option (List Nat))
    (db_path : Option (Option String))
    (h : block_hash = none ∨
      (∃ bytes, block_hash = some bytes ∧ bytes.length ≠ 32) ∨
      db_path = none ∨ db_path = some none) :
    fetch_block_receipts p block_hash db_path = ReceiptsResult.fail := by
  unfold fetch_block_receipts read_receipts_inner
  rcases h with h | ⟨bytes, hb, hblen⟩ | h | h
  · subst h
    rfl
  · subst hb
    dsimp only
    rw [if_neg hblen]
  · subst h
    cases block_hash with
    | none => rfl
    | some bytes =>
      dsimp only
      by_cases hblen : bytes.length = 32
      · rw [if_pos hblen]
      · rw [if_neg hblen]
  · subst h
    cases block_hash with
    | none => rfl
    | some bytes =>
      dsimp only
      by_cases hblen : bytes.length = 32
      · rw [if_pos hblen]
      · rw [if_neg hblen]

/-- Witness for C7: a null block-hash pointer yields the failure
envelope. -/
theorem input_validation_failure_witness :
    fetch_block_receipts wProvider none (some (some "testdata")) =
      ReceiptsResult.fail :=
  input_validation_failure wProvider none (some (some "testdata"))
    (Or.inl rfl)

/-- C6: envelope invariant — the failure constructor is exactly
(null, 0, true), a failed envelope has a null payload of length 0, and a
successful envelope carries a payload string together with its exact
length. -/
theorem envelope_invariant (p : Provider) (block_hash : Option (List Nat))
    (db_path : Option (Option String)) :
    ReceiptsResult.fail.data = none ∧ ReceiptsResult.fail.data_len = 0 ∧
    ReceiptsResult.fail.error = true ∧
    ((fetch_block_receipts p block_hash db_path).error = true →
      (fetch_block_receipts p block_hash db_path).data = none ∧
      (fetch_block_receipts p block_hash db_path).data_len = 0) ∧
    ((fetch_block_receipts p block_hash db_path).error = false →
      ∃ s, (fetch_block_receipts p block_hash db_path).data = some s ∧
        (fetch_block_receipts p block_hash db_path).data_len = s.length) := by
  refine ⟨rfl, rfl, rfl, ?_, ?_⟩
  · intro herr
    rcases fetch_cases p block_hash db_path with hc | ⟨recs, hc⟩
    · rw [hc]
      exact ⟨rfl, rfl⟩
    · rw [hc] at herr
      simp [ReceiptsResult.success] at herr
  · intro herr
    rcases fetch_cases p block_hash db_path with hc | ⟨recs, hc⟩
    · rw [hc] at herr
      simp [ReceiptsResult.fail] at herr
    · rw [hc]
      exact ⟨serializeReceipts recs, rfl, rfl⟩

/-- Witness for C6: the failed envelope of a null-pointer call has a null
payload of length 0. -/
theorem envelope_invariant_witness :
    (fetch_block_receipts wProvider none none).data = none ∧
    (fetch_block_receipts wProvider none none).data_len = 0 :=
  (envelope_invariant wProvider none none).2.2.2.1 rfl

/-- C3: if any single transaction of the block fails to hydrate (sender
unrecoverable), the whole request yields the failure envelope — never a
shortened or partial success sequence. -/
theorem failure_atomicity {p : Provider} {bytes : List Nat} {path : String}
    {block : Block} {receipts : List Receipt}
    (hlen : bytes.length = 32)
    (hdb : p.openDb path = Except.ok ())
    (hbb : p.blockByHash bytes = Except.ok (some block))
    (hrb : p.receiptsByBlock bytes = Except.ok (some receipts))
    (hfail : ∃ i tx rc, block.body.get? i = some tx ∧ receipts.get? i = some rc ∧
      build_transaction_receipt_with_block_receipts tx
        { tx_hash := tx.hash, index := i, block_hash := block.hashSlow
          block_number := block.number, base_fee := block.base_fee_per_gas }
        rc receipts = none) :
    fetch_block_receipts p (some bytes) (some (some path))
      = ReceiptsResult.fail := by
  have hhyd : hydrateBlock block receipts = none := by
    cases hh : hydrateBlock block receipts with
    | none => rfl
    | some recs =>
      exfalso
      obtain ⟨i, tx, rc, h1, h2, h3⟩ := hfail
      obtain ⟨hlen2, hspec⟩ := hydrateBlock_spec hh
      have hib : i < block.body.length := (List.get?_eq_some.mp h1).choose
      have hire : i < receipts.length := (List.get?_eq_some.mp h2).choose
      have hi : i < recs.length := by
        rw [hlen2]
        exact lt_min hib hire
      obtain ⟨tx', rc', r, hb1, hb2, hb3, hb4⟩ := hspec i hi
      rw [h1] at hb1
      rw [h2] at hb2
      obtain rfl := Option.some.inj hb1
      obtain rfl := Option.some.inj hb2
      rw [h3] at hb3
      exact Option.noConfusion hb3
  simp [fetch_block_receipts, read_receipts_inner, hlen, hdb, hbb, hrb, hhyd]

/-- Block containing a transaction whose sender cannot be recovered. -/
def wBadBlock : Block :=
  { number := 1234, base_fee_per_gas := some 7, body := [wTx0, wTxBad]
    hashSlow := 0x99 }

/-- Provider backed by the bad block. -/
def wBadProvider : Provider :=
  { openDb := fun _ => Except.ok ()
    blockByHash := fun _ => Except.ok (some wBadBlock)
    receiptsByBlock := fun _ => Except.ok (some wReceipts) }

/-- Witness for C3: the block whose second transaction has an
unrecoverable signature yields the failure envelope. -/
theorem failure_atomicity_witness :
    fetch_block_receipts wBadProvider (some wHash32) (some (some "testdata"))
      = ReceiptsResult.fail :=
  failure_atomicity (by decide) rfl rfl rfl ⟨1, wTxBad, wRc1, rfl, rfl, rfl⟩

/-- C4: on success the payload is the serialization of exactly one
hydrated record per transaction of the fetched block, in block order, the
record at position `i` being built from the transaction and raw receipt at
position `i`. -/
theorem payload_one_record_per_tx {p : Provider} {bytes : List Nat}
    {path : String} {block : Block} {receipts : List Receipt}
    {res : ReceiptsResult}
    (hlen : bytes.length = 32)
    (hdb : p.openDb path = Except.ok ())
    (hbb : p.blockByHash bytes = Except.ok (some block))
    (hrb : p.receiptsByBlock bytes = Except.ok (some receipts))
    (hsame : receipts.length = block.body.length)
    (hok : read_receipts_inner p (some bytes) (some (some path))
      = Except.ok res) :
    ∃ recs, hydrateBlock block receipts = some recs ∧
      res = ReceiptsResult.success (serializeReceipts recs)
        (serializeReceipts recs).length ∧
      recs.length = block.body.length ∧
      ∀ i, i < recs.length → ∃ tx rc r,
        block.body.get? i = some tx ∧ receipts.get? i = some rc ∧
        build_transaction_receipt_with_block_receipts tx
          { tx_hash := tx.hash, index := i, block_hash := block.hashSlow
            block_number := block.number, base_fee := block.base_fee_per_gas }
          rc receipts = some r ∧
        recs.get? i = some r := by
  cases hh : hydrateBlock block receipts with
  | none =>
    simp [read_receipts_inner, hlen, hdb, hbb, hrb, hh] at hok
  | some recs =>
    simp [read_receipts_inner, hlen, hdb, hbb, hrb, hh] at hok
    obtain ⟨hlen2, hspec⟩ := hydrateBlock_spec hh
    refine ⟨recs, rfl, ?_, ?_, hspec⟩
    · rw [← hok]
    · rw [hlen2, hsame]
      exact min_self _

/-- Witness for C4: the concrete two-transaction block hydrates to exactly
two records. -/
theorem payload_one_record_per_tx_witness :
    ∃ recs, hydrateBlock wBlock wReceipts = some recs ∧
      recs.length = wBlock.body.length := by
  obtain ⟨recs, h1, h2, h3, h4⟩ := payload_one_record_per_tx
    (by decide : wHash32.length = 32) rfl rfl rfl
    (rfl : wReceipts.length = wBlock.body.length)
    (rfl : read_receipts_inner wProvider (some wHash32) (some (some "testdata"))
      = Except.ok (ReceiptsResult.success (serializeReceipts wRecs)
          (serializeReceipts wRecs).length))
  exact ⟨recs, h1, h3⟩

end RethdbReader

namespace RethdbReader

/-- Extending the prefix by one receipt adds that receipt's log count. -/
theorem numLogsBefore_succ {all : List Receipt} {n : Nat} {rc : Receipt}
    (h : all.get? n = some rc) :
    numLogsBefore all (n + 1) = numLogsBefore all n + rc.logs.length := by
  have hg : all[n]? = some rc := by
    simpa [List.get?_eq_getElem?] using h
  unfold numLogsBefore
  rw [List.take_succ, hg]
  simp

/-- Hydration preserves the per-transaction log count. -/
theorem build_logs_length {tx : TransactionSigned} {meta : TransactionMeta}
    {receipt : Receipt} {all_receipts : List Receipt} {out : TransactionReceipt}
    (h : build_transaction_receipt_with_block_receipts tx meta receipt all_receipts
      = some out) :
    out.logs.length = receipt.logs.length := by
  rw [build_logs h]
  simp

/-- The log indices of a hydrated receipt are the consecutive block-scoped
indices starting at the prefix log count. -/
theorem build_log_index_map {tx : TransactionSigned} {meta : TransactionMeta}
    {receipt : Receipt} {all_receipts : List Receipt} {out : TransactionReceipt}
    (h : build_transaction_receipt_with_block_receipts tx meta receipt all_receipts
      = some out) :
    out.logs.map (fun l => l.log_index)
      = (List.range' (numLogsBefore all_receipts meta.index)
          receipt.logs.length).map some := by
  rw [build_logs h, List.map_map]
  show receipt.logs.enum.map
    ((fun k => some (numLogsBefore all_receipts meta.index + k)) ∘ Prod.fst) = _
  rw [← List.map_map, List.enum_map_fst]
  rw [List.range'_eq_map_range, List.map_map]
  rfl

/-- Gluing adjacent consecutive-index segments. -/
theorem range'_some_glue (s m k : Nat) :
    (List.range' s m).map (some : Nat → Option Nat)
        ++ (List.range' (s + m) k).map some
      = (List.range' s (m + k)).map (some : Nat → Option Nat) := by
  rw [← List.map_append]
  have h := List.range'_append s m k 1
  simp only [one_mul] at h
  rw [Nat.add_comm m k]
  rw [h]

/-- Induction core for the log-index invariant: hydrating the suffix of a
block starting at position `n` (against the full receipt list `all`)
produces logs whose block-scoped indices are exactly the consecutive
integers starting at the prefix log count of `n`. -/
theorem hydrate_logs_aux (blk : Block) (all : List Receipt) :
    ∀ (body : List TransactionSigned) (n : Nat)
      (recs : List TransactionReceipt),
    collectOption ((List.enumFrom n (body.zip (all.drop n))).map (fun p =>
      build_transaction_receipt_with_block_receipts p.2.1
        { tx_hash := p.2.1.hash, index := p.1, block_hash := blk.hashSlow
          block_number := blk.number, base_fee := blk.base_fee_per_gas }
        p.2.2 all)) = some recs →
    ((recs.map (fun r => r.logs)).flatten).map (fun l => l.log_index)
      = (List.range' (numLogsBefore all n)
          ((recs.map (fun r => r.logs)).flatten.length)).map some := by
  intro body
  induction body with
  | nil =>
    intro n recs h
    simp [collectOption] at h
    subst h
    simp
  | cons tx txs ih =>
    intro n recs h
    cases hd : all.drop n with
    | nil =>
      rw [hd] at h
      simp [collectOption] at h
      subst h
      simp
    | cons rc rest =>
      rw [hd, List.zip_cons_cons, List.enumFrom_cons] at h
      simp only [List.map_cons] at h
      cases hb : build_transaction_receipt_with_block_receipts tx
          { tx_hash := tx.hash, index := n, block_hash := blk.hashSlow
            block_number := blk.number, base_fee := blk.base_fee_per_gas }
          rc all with
      | none =>
        rw [hb] at h
        simp [collectOption] at h
      | some out =>
        rw [hb] at h
        simp only [collectOption, Option.map_eq_some'] at h
        obtain ⟨recs', hrecs', hcons⟩ := h
        have hrest : all.drop (n + 1) = rest := by
          have hdd := List.drop_drop 1 n all
          rw [hd] at hdd
          simpa using hdd.symm
        have hgn : all.get? n = some rc := by
          have h0 : (all.drop n).get? 0 = all.get? (n + 0) := by
            simp [List.get?_eq_getElem?, List.getElem?_drop]
          rw [hd] at h0
          simpa using h0.symm
        have IH := ih (n + 1) recs' (by rw [hrest]; exact hrecs')
        subst hcons
        rw [List.map_cons, List.flatten_cons, List.map_append, List.length_append]
        rw [build_log_index_map hb, IH, numLogsBefore_succ hgn]
        rw [build_logs_length hb]
        exact range'_some_glue _ _ _

/-- C2: the block-scoped log index of the k-th log of the hydrated receipt
at position i is the sum of the log counts of the raw receipts before i,
plus k; consequently the concatenation of all hydrated logs in block order
carries the log indices 0, 1, 2, ... with no gaps or repeats. -/
theorem log_index_invariant {block : Block} {receipts : List Receipt}
    {recs : List TransactionReceipt}
    (hhyd : hydrateBlock block receipts = some recs) :
    (∀ i ri, recs.get? i = some ri → ∀ k l, ri.logs.get? k = some l →
      l.log_index = some (numLogsBefore receipts i + k)) ∧
    ((recs.map (fun r => r.logs)).flatten.map (fun l => l.log_index)
      = (List.range ((recs.map (fun r => r.logs)).flatten.length)).map some) := by
  constructor
  · intro i ri hri k l hkl
    have hi : i < recs.length := (List.get?_eq_some.mp hri).choose
    obtain ⟨_, hspec⟩ := hydrateBlock_spec hhyd
    obtain ⟨tx, rc, r, hb1, hb2, hb3, hb4⟩ := hspec i hi
    have hr : ri = r := by
      rw [hri] at hb4
      exact Option.some.inj hb4
    subst hr
    have hklen : k < ri.logs.length := (List.get?_eq_some.mp hkl).choose
    have hklen' : k < rc.logs.length := by
      rw [← build_logs_length hb3]
      exact hklen
    have hmap := congrArg (fun xs => xs.get? k) (build_log_index_map hb3)
    simp only [List.get?_map] at hmap
    rw [hkl] at hmap
    have hr' : (List.range' (numLogsBefore receipts i) rc.logs.length).get? k
        = some (numLogsBefore receipts i + k) := by
      simp [List.get?_eq_getElem?, List.getElem?_range', hklen']
    rw [hr'] at hmap
    exact Option.some.inj hmap
  · have haux := hydrate_logs_aux block receipts block.body 0 recs
      (by
        rw [List.drop_zero]
        exact hhyd)
    rw [haux]
    rw [show numLogsBefore receipts 0 = 0 from rfl]
    rw [List.range_eq_range']

/-- Witness for C2: in the concrete block the second hydrated receipt's
second log carries block-scoped index 1 + 1 = 2. -/
theorem log_index_invariant_witness :
    wRecs.get? 1 = some wHyd1 ∧
    ∃ l, wHyd1.logs.get? 1 = some l ∧ l.log_index = some 2 := by
  refine ⟨rfl, ?_⟩
  obtain ⟨l, hl⟩ : ∃ l, wHyd1.logs.get? 1 = some l := ⟨_, rfl⟩
  refine ⟨l, hl, ?_⟩
  have h := (log_index_invariant
    (rfl : hydrateBlock wBlock wReceipts = some wRecs)).1 1 wHyd1 rfl 1 l hl
  rw [h]
  decide

end RethdbReader
